import Mathlib

/-!
Verification of the audio capture / mixing / encoding / streaming pipeline of
the chrome-extension repository. Sample values are modelled as rationals
(exact arithmetic standing in for IEEE doubles, as the spec's statements are
"within floating tolerance"), 16-bit PCM storage as integer truncation plus
the 2^16 wrap the JS `Int16Array` store performs, and the offscreen-document
control flow (`offscreen.js`) as explicit state passing with an event trace.
-/

namespace ChromeExt

/-! ### Peak normalization (`normalizeAudioBuffer`, offscreen-original.js:658-683 and unnamed/part_005:93-118) -/

/-- Peak-amplitude scan of `normalizeAudioBuffer`: starts at `0` and replaces
the running maximum whenever `|buffer[i]|` exceeds it. -/
def maxAmplitude (buffer : List ℚ) : ℚ :=
  buffer.foldl (fun m x => if |x| > m then |x| else m) 0

/-- Embedding of `normalizeAudioBuffer`: an empty buffer is returned as is;
if the peak exceeds `0.95` every sample is scaled by `0.95 / peak`
(`normalizationFactor`); otherwise the buffer is returned unchanged. -/
def normalizeAudioBuffer (buffer : List ℚ) : List ℚ :=
  if buffer.length = 0 then buffer
  else if maxAmplitude buffer > 0.95 then
    buffer.map (fun x => x * (0.95 / maxAmplitude buffer))
  else buffer

lemma maxAmplitude_step (m x : ℚ) : (if |x| > m then |x| else m) = max m |x| := by
  rcases le_or_lt |x| m with h | h
  · simp [max_eq_left h, not_lt.mpr h]
  · simp [max_eq_right h.le, h]

lemma maxAmplitude_eq_foldl_max (buffer : List ℚ) :
    maxAmplitude buffer = buffer.foldl (fun m x => max m |x|) 0 := by
  unfold maxAmplitude
  congr 1
  funext m x
  exact maxAmplitude_step m x

lemma foldl_max_abs_scale (c : ℚ) (hc : 0 ≤ c) :
    ∀ (l : List ℚ) (a : ℚ),
      (l.map (fun x => x * c)).foldl (fun m x => max m |x|) (c * a)
        = c * l.foldl (fun m x => max m |x|) a := by
  intro l
  induction l with
  | nil => intro a; simp
  | cons x xs ih =>
      intro a
      have habs : |x * c| = c * |x| := by
        rw [abs_mul, abs_of_nonneg hc, mul_comm]
      have hmax : max (c * a) (c * |x|) = c * max a |x| := by
        rcases le_total a |x| with h | h
        · rw [max_eq_right h, max_eq_right (mul_le_mul_of_nonneg_left h hc)]
        · rw [max_eq_left h, max_eq_left (mul_le_mul_of_nonneg_left h hc)]
      simp only [List.map_cons, List.foldl_cons, habs, hmax]
      exact ih (max a |x|)

lemma maxAmplitude_scale (buffer : List ℚ) (c : ℚ) (hc : 0 ≤ c) :
    maxAmplitude (buffer.map (fun x => x * c)) = c * maxAmplitude buffer := by
  rw [maxAmplitude_eq_foldl_max, maxAmplitude_eq_foldl_max]
  have h := foldl_max_abs_scale c hc buffer 0
  rwa [mul_zero] at h

/-- C1. Peak normalization law: on a non-empty frame whose peak `m` exceeds
`0.95`, `normalizeAudioBuffer` returns the input scaled by `0.95 / m` and the
returned frame's peak is exactly `0.95`; when `m ≤ 0.95` the input is
returned unchanged. -/
theorem normalizeAudioBuffer_spec (buffer : List ℚ) (hne : buffer ≠ []) :
    (maxAmplitude buffer > 0.95 →
      normalizeAudioBuffer buffer
          = buffer.map (fun x => x * (0.95 / maxAmplitude buffer)) ∧
      maxAmplitude (normalizeAudioBuffer buffer) = 0.95) ∧
    (maxAmplitude buffer ≤ 0.95 → normalizeAudioBuffer buffer = buffer) := by
  have hlen : buffer.length ≠ 0 := by
    simpa using List.length_pos.mpr hne |>.ne'
  constructor
  · intro hm
    have hdef : normalizeAudioBuffer buffer
        = buffer.map (fun x => x * (0.95 / maxAmplitude buffer)) := by
      unfold normalizeAudioBuffer
      rw [if_neg hlen, if_pos hm]
    refine ⟨hdef, ?_⟩
    have hm0 : (0 : ℚ) < maxAmplitude buffer := lt_trans (by norm_num) hm
    have hc : (0 : ℚ) ≤ 0.95 / maxAmplitude buffer := by positivity
    rw [hdef, maxAmplitude_scale buffer _ hc, mul_comm]
    field_simp
  · intro hm
    unfold normalizeAudioBuffer
    rw [if_neg hlen, if_neg (not_lt.mpr hm)]

/-- C1 witness: the frame `[1, -2]` has peak `2 > 0.95`; the normalized frame
is the scaled frame with peak exactly `0.95`. -/
theorem normalizeAudioBuffer_spec_witness :
    ([(1 : ℚ), -2] ≠ []) ∧
    ((maxAmplitude [(1 : ℚ), -2] > 0.95 →
      normalizeAudioBuffer [(1 : ℚ), -2]
          = [(1 : ℚ), -2].map (fun x => x * (0.95 / maxAmplitude [(1 : ℚ), -2])) ∧
      maxAmplitude (normalizeAudioBuffer [(1 : ℚ), -2]) = 0.95) ∧
    (maxAmplitude [(1 : ℚ), -2] ≤ 0.95 → normalizeAudioBuffer [(1 : ℚ), -2] = [(1 : ℚ), -2])) :=
  ⟨by decide, normalizeAudioBuffer_spec [(1 : ℚ), -2] (by decide)⟩

/-! ### Float to 16-bit PCM (`floatTo16BitPCM`, offscreen.js:119-126 and unnamed/part_005:81-88) -/

/-- Truncation toward zero, the rounding the JS engine applies when a number
is stored into an `Int16Array` slot. -/
def ratTrunc (q : ℚ) : ℤ := if q < 0 then ⌈q⌉ else ⌊q⌋

/-- Store of a number into an `Int16Array` slot: truncate toward zero, then
wrap modulo `2^16` into the signed 16-bit range. -/
def int16Store (q : ℚ) : ℤ := (ratTrunc q + 0x8000) % 0x10000 - 0x8000

/-- Embedding of `floatTo16BitPCM`'s loop body: `s` is the sample clamped to
`[-1, 1]` via `Math.max(-1, Math.min(1, input[i]))`; a negative `s` scales by
`0x8000`, a non-negative one by `0x7FFF`; the result lands in the
`Int16Array`. -/
def sampleToPCM (x : ℚ) : ℤ :=
  let s := max (-1) (min 1 x)
  int16Store (if s < 0 then s * 0x8000 else s * 0x7FFF)

/-- Embedding of `floatTo16BitPCM`: element-wise conversion of the frame. -/
def floatTo16BitPCM (input : List ℚ) : List ℤ := input.map sampleToPCM

/-- Clamp to `[-1, 1]`, stated from the spec's words (for the refinement
statements C2/C3). -/
def clamp1 (x : ℚ) : ℚ := max (-1) (min 1 x)

/-- Asymmetric scaling stated from the spec's words: `0x8000` for negative,
`0x7FFF` for non-negative. -/
def pcmScale (s : ℚ) : ℚ := if s < 0 then s * 0x8000 else s * 0x7FFF

/-- Decoding direction of the spec's round-trip law: divide by `0x8000` when
the PCM value is negative, by `0x7FFF` otherwise. -/
def pcmDecode (p : ℤ) : ℚ := if p < 0 then (p : ℚ) / 0x8000 else (p : ℚ) / 0x7FFF

lemma clamp1_bounds (x : ℚ) : -1 ≤ clamp1 x ∧ clamp1 x ≤ 1 := by
  unfold clamp1
  constructor
  · exact le_max_left _ _
  · exact max_le (by norm_num) (min_le_left _ _)

lemma pcmScale_bounds (s : ℚ) (h1 : -1 ≤ s) (h2 : s ≤ 1) :
    -32768 ≤ pcmScale s ∧ pcmScale s ≤ 32767 := by
  unfold pcmScale
  split
  · constructor <;> nlinarith
  · constructor <;> nlinarith

lemma ratTrunc_bounds (q : ℚ) (h1 : -32768 ≤ q) (h2 : q ≤ 32767) :
    -32768 ≤ ratTrunc q ∧ ratTrunc q ≤ 32767 := by
  unfold ratTrunc
  split
  · rename_i hq
    have hceil : ⌈q⌉ ≤ (0 : ℤ) := Int.ceil_le.mpr (by exact_mod_cast hq.le)
    have hlow : (-32768 : ℚ) ≤ (⌈q⌉ : ℚ) := le_trans h1 (Int.le_ceil q)
    exact ⟨by exact_mod_cast hlow, by omega⟩
  · rename_i hq
    push_neg at hq
    have hfl : (0 : ℤ) ≤ ⌊q⌋ := Int.floor_nonneg.mpr hq
    have hhi : (⌊q⌋ : ℚ) ≤ (32767 : ℚ) := le_trans (Int.floor_le q) h2
    exact ⟨by omega, by exact_mod_cast hhi⟩

lemma int16Store_eq_ratTrunc (q : ℚ) (h1 : -32768 ≤ ratTrunc q)
    (h2 : ratTrunc q ≤ 32767) : int16Store q = ratTrunc q := by
  unfold int16Store
  omega

lemma sampleToPCM_eq (x : ℚ) : sampleToPCM x = ratTrunc (pcmScale (clamp1 x)) := by
  have hb := clamp1_bounds x
  have hs := pcmScale_bounds (clamp1 x) hb.1 hb.2
  have ht := ratTrunc_bounds _ hs.1 hs.2
  show int16Store (if clamp1 x < 0 then clamp1 x * 0x8000 else clamp1 x * 0x7FFF)
      = ratTrunc (pcmScale (clamp1 x))
  rw [show (if clamp1 x < 0 then clamp1 x * 0x8000 else clamp1 x * 0x7FFF)
        = pcmScale (clamp1 x) from rfl]
  exact int16Store_eq_ratTrunc _ ht.1 ht.2

/-- C2. `floatTo16BitPCM` returns an array of the same length; each element
is its input sample clamped to `[-1, 1]`, scaled by `0x8000` when the clamped
value is negative and `0x7FFF` otherwise (truncated to an integer by the
`Int16Array` store, which never wraps here: the value stays inside
`[-32768, 32767]`). -/
theorem floatTo16BitPCM_spec (input : List ℚ) :
    (floatTo16BitPCM input).length = input.length ∧
    ∀ (i : ℕ) (x : ℚ), input[i]? = some x →
      (floatTo16BitPCM input)[i]? = some (ratTrunc (pcmScale (clamp1 x))) ∧
      -32768 ≤ ratTrunc (pcmScale (clamp1 x)) ∧
      ratTrunc (pcmScale (clamp1 x)) ≤ 32767 := by
  constructor
  · simp [floatTo16BitPCM]
  · intro i x hx
    have hb := clamp1_bounds x
    have hs := pcmScale_bounds (clamp1 x) hb.1 hb.2
    have ht := ratTrunc_bounds _ hs.1 hs.2
    refine ⟨?_, ht.1, ht.2⟩
    simp [floatTo16BitPCM, hx, sampleToPCM_eq]

/-- C2 witness: the two-sample frame `[-1, 2]` at index `0`. -/
theorem floatTo16BitPCM_spec_witness :
    (floatTo16BitPCM [(-1 : ℚ), 2]).length = ([(-1 : ℚ), 2] : List ℚ).length ∧
    ((floatTo16BitPCM [(-1 : ℚ), 2])[0]? = some (ratTrunc (pcmScale (clamp1 (-1)))) ∧
      -32768 ≤ ratTrunc (pcmScale (clamp1 (-1))) ∧
      ratTrunc (pcmScale (clamp1 (-1))) ≤ 32767) :=
  ⟨(floatTo16BitPCM_spec [(-1 : ℚ), 2]).1,
   (floatTo16BitPCM_spec [(-1 : ℚ), 2]).2 0 (-1) (by decide)⟩

/-- C3. PCM round trip: for a sample `s ∈ [-1, 1]`, decoding
`sampleToPCM s` (divide by `0x8000` if negative, `0x7FFF` otherwise)
reproduces `s` within one quantization step `1/0x7FFF`. -/
theorem pcm_roundTrip (s : ℚ) (h1 : -1 ≤ s) (h2 : s ≤ 1) :
    |pcmDecode (sampleToPCM s) - s| ≤ 1 / 0x7FFF := by
  have hclamp : clamp1 s = s := by
    unfold clamp1
    rw [min_eq_right h2, max_eq_right h1]
  rw [sampleToPCM_eq, hclamp]
  rcases lt_or_le s 0 with hneg | hpos
  · -- negative branch: scale by 0x8000, truncation is the ceiling
    have hq : pcmScale s = s * 32768 := by unfold pcmScale; rw [if_pos hneg]
    have hqneg : s * 32768 < 0 := by nlinarith
    have htr : ratTrunc (pcmScale s) = ⌈s * 32768⌉ := by
      unfold ratTrunc
      rw [hq, if_pos hqneg]
    have hlo : s * 32768 ≤ (⌈s * 32768⌉ : ℚ) := Int.le_ceil _
    have hhi : (⌈s * 32768⌉ : ℚ) < s * 32768 + 1 := Int.ceil_lt_add_one _
    rw [htr]
    rcases lt_or_le (⌈s * 32768⌉) 0 with hp | hp
    · have hdec : pcmDecode ⌈s * 32768⌉ = (⌈s * 32768⌉ : ℚ) / 32768 := by
        unfold pcmDecode
        rw [if_pos hp]
      rw [hdec, abs_of_nonneg (by linarith)]
      linarith
    · have hup : (⌈s * 32768⌉ : ℚ) ≤ 0 := by
        have hc : ⌈s * 32768⌉ ≤ (0 : ℤ) := Int.ceil_le.mpr (by exact_mod_cast hqneg.le)
        exact_mod_cast hc
      have hzero : ⌈s * 32768⌉ = 0 := by
        have : (0 : ℚ) ≤ (⌈s * 32768⌉ : ℚ) := by exact_mod_cast hp
        exact_mod_cast le_antisymm hup this
      have hdec : pcmDecode ⌈s * 32768⌉ = 0 := by
        unfold pcmDecode
        rw [hzero]
        norm_num
      rw [hdec]
      have hsgt : -1/32768 < s := by
        rw [hzero] at hhi
        push_cast at hhi
        linarith
      rw [abs_of_nonneg (by linarith)]
      linarith
  · -- non-negative branch: scale by 0x7FFF, truncation is the floor
    have hq : pcmScale s = s * 32767 := by unfold pcmScale; rw [if_neg (not_lt.mpr hpos)]
    have hqpos : 0 ≤ s * 32767 := by nlinarith
    have htr : ratTrunc (pcmScale s) = ⌊s * 32767⌋ := by
      unfold ratTrunc
      rw [hq, if_neg (not_lt.mpr hqpos)]
    have hfl : (0 : ℤ) ≤ ⌊s * 32767⌋ := Int.floor_nonneg.mpr hqpos
    have hle : (⌊s * 32767⌋ : ℚ) ≤ s * 32767 := Int.floor_le _
    have hgt : s * 32767 - 1 < (⌊s * 32767⌋ : ℚ) := Int.sub_one_lt_floor _
    rw [htr]
    have hdec : pcmDecode ⌊s * 32767⌋ = (⌊s * 32767⌋ : ℚ) / 32767 := by
      unfold pcmDecode
      rw [if_neg (not_lt.mpr hfl)]
    rw [hdec, abs_of_nonpos (by linarith)]
    linarith

/-- C3 witness: the sample `s = -1`, the bottom of the admissible range. -/
theorem pcm_roundTrip_witness :
    (-1 ≤ (-1 : ℚ)) ∧ ((-1 : ℚ) ≤ 1) ∧
    |pcmDecode (sampleToPCM (-1)) - (-1)| ≤ 1 / 0x7FFF :=
  ⟨by decide, by decide, pcm_roundTrip (-1) (by decide) (by decide)⟩

/-! ### Offscreen document control flow (offscreen.js)

The module-scope mutable variables of `offscreen.js` become an explicit
state record, and the externally observable actions (WebSocket sends and
closes, encoder invocations, the `recordingStopped` notification, scheduled
reconnection timers) become an event trace. The lamejs encoder is external
code; it is abstracted as a pair of functions over an opaque internal state
`E`. Fields of the JS code with no bearing on any claim (error log,
heartbeat timestamps, audio nodes) are omitted. -/

/-- readyState of a WebSocket (`CONNECTING/OPEN/CLOSING/CLOSED`). -/
inductive WsReady
  | connecting
  | opened
  | closing
  | closed
deriving DecidableEq

/-- Interface of the streaming MP3 encoder (lamejs `Mp3Encoder`), abstract
over its internal state `E`: `encodeBuffer` consumes a PCM frame and may
emit bytes, `flush` emits the trailing buffered bytes. -/
structure Encoder (E : Type) where
  encodeBuffer : E → List ℤ → E × List ℕ
  flush : E → List ℕ

/-- Observable actions of the offscreen document, listed in program order in
each trace. -/
inductive Event
  | encodeCall
  | send (data : List ℕ)
  | flushCall
  | close (code : ℕ)
  | notifyStopped
  | reconnectScheduled (attempt : ℕ)
deriving DecidableEq

/-- Module-scope state of `offscreen.js` relevant to the claims:
`isRecording`, `recordingStartTime`, `connectionAttempts`, the encoder
reference and the WebSocket reference (with its readyState). -/
structure OffState (E : Type) where
  isRecording : Bool
  recordingStartTime : Option ℕ
  connectionAttempts : ℕ
  mp3Encoder : Option E
  ws : Option WsReady
deriving DecidableEq

/-- CONFIG.MAX_CONNECTION_ATTEMPTS. -/
def MAX_CONNECTION_ATTEMPTS : ℕ := 5

variable {E : Type}

/-- Embedding of `processAudioBuffer` (offscreen.js:483-499): bail out when
not recording or no encoder; otherwise convert the frame to PCM, encode it,
and send the bytes only when they are non-empty and the socket is OPEN. -/
def processAudioBuffer (enc : Encoder E) (st : OffState E) (buffer : List ℚ) :
    OffState E × List Event :=
  if st.isRecording = false then (st, [])
  else
    match st.mp3Encoder with
    | none => (st, [])
    | some e =>
        let samples := floatTo16BitPCM buffer
        let (e2, mp3buf) := enc.encodeBuffer e samples
        let st2 := { st with mp3Encoder := some e2 }
        if 0 < mp3buf.length ∧ st2.ws = some WsReady.opened then
          (st2, [Event.encodeCall, Event.send mp3buf])
        else
          (st2, [Event.encodeCall])

/-- Embedding of `cleanupWebSocket` (offscreen.js:619-631): when a socket is
present, close it with code 1000 only if it is OPEN, then drop the
reference. -/
def cleanupWebSocket (st : OffState E) : OffState E × List Event :=
  match st.ws with
  | none => (st, [])
  | some r =>
      if r = WsReady.opened then ({ st with ws := none }, [Event.close 1000])
      else ({ st with ws := none }, [])

/-- Embedding of `stopRecording` (offscreen.js:504-564): no-op when not
recording; otherwise clear the recording flag and start time, flush the
encoder and send the trailing bytes only when an encoder exists and the
socket is OPEN, null out the audio nodes and the encoder
(`cleanupAudioNodes`), stop the media streams, close the socket
(`cleanupWebSocket`), release keep-alive parts and the audio context, reset
`connectionAttempts`, and notify the background page. -/
def stopRecording (enc : Encoder E) (st : OffState E) : OffState E × List Event :=
  if st.isRecording = false then (st, [])
  else
    let st1 : OffState E := { st with isRecording := false, recordingStartTime := none }
    let flushEvs : List Event :=
      match st1.mp3Encoder, st1.ws with
      | some e, some r =>
          if r = WsReady.opened then
            Event.flushCall ::
              (if 0 < (enc.flush e).length then [Event.send (enc.flush e)] else [])
          else []
      | _, _ => []
    let st2 : OffState E := { st1 with mp3Encoder := none }
    let (st3, closeEvs) := cleanupWebSocket st2
    let st4 : OffState E := { st3 with connectionAttempts := 0 }
    (st4, flushEvs ++ closeEvs ++ [Event.notifyStopped])

/-- Embedding of `attemptReconnect` (offscreen.js:98-115): at or beyond the
attempt cap, force a full `stopRecording`; otherwise bump the counter and
schedule a reconnection attempt. -/
def attemptReconnect (enc : Encoder E) (st : OffState E) : OffState E × List Event :=
  if MAX_CONNECTION_ATTEMPTS ≤ st.connectionAttempts then
    stopRecording enc st
  else
    ({ st with connectionAttempts := st.connectionAttempts + 1 },
      [Event.reconnectScheduled (st.connectionAttempts + 1)])

/-- Embedding of the `ws.onclose` handler (offscreen.js:166-173): the handler
fires on a socket the state holds (which is now CLOSED); while recording, a
close code other than 1000 triggers `attemptReconnect`. -/
def handleWsClose (enc : Encoder E) (code : ℕ) (st : OffState E) :
    OffState E × List Event :=
  match st.ws with
  | none => (st, [])
  | some _ =>
      let st1 : OffState E := { st with ws := some WsReady.closed }
      if st1.isRecording = true ∧ code ≠ 1000 then attemptReconnect enc st1
      else (st1, [])

/-- Delivery of a sequence of worklet frames to `processAudioBuffer`, with
the concatenated event trace. -/
def processBuffers (enc : Encoder E) : OffState E → List (List ℚ) → OffState E × List Event
  | st, [] => (st, [])
  | st, b :: bs =>
      let (st1, evs1) := processAudioBuffer enc st b
      let (st2, evs2) := processBuffers enc st1 bs
      (st2, evs1 ++ evs2)

/-- A recording run: deliver the frames, then invoke `stopRecording`. -/
def sessionRun (enc : Encoder E) (st : OffState E) (bs : List (List ℚ)) :
    OffState E × List Event :=
  let (st1, evs1) := processBuffers enc st bs
  let (st2, evs2) := stopRecording enc st1
  (st2, evs1 ++ evs2)

/-- A burst of `n` consecutive unexpected close events with the same code. -/
def runCloses (enc : Encoder E) (code : ℕ) : OffState E → ℕ → OffState E × List Event
  | st, 0 => (st, [])
  | st, n + 1 =>
      let (st1, evs1) := handleWsClose enc code st
      let (st2, evs2) := runCloses enc code st1 n
      (st2, evs1 ++ evs2)

/-- Embedding of `processAudioBuffer` of `unnamed/part_005` (lines 123-166):
same recording/encoder guard, then an empty-buffer guard, normalization
before PCM conversion, and a reconnection attempt when the socket is absent
or CLOSED while the frame had to be dropped. (The `try`/`catch` around the
send, which only handles an exception thrown by the browser's `send`,
is modelled as the non-throwing path.) -/
def processAudioBufferP5 (enc : Encoder E) (st : OffState E) (buffer : List ℚ) :
    OffState E × List Event :=
  if st.isRecording = false then (st, [])
  else
    match st.mp3Encoder with
    | none => (st, [])
    | some e =>
        if buffer.length = 0 then (st, [])
        else
          let samples := floatTo16BitPCM (normalizeAudioBuffer buffer)
          let (e2, mp3buf) := enc.encodeBuffer e samples
          let st2 := { st with mp3Encoder := some e2 }
          if 0 < mp3buf.length ∧ st2.ws = some WsReady.opened then
            (st2, [Event.encodeCall, Event.send mp3buf])
          else if st2.ws ≠ some WsReady.opened then
            if st2.isRecording = true ∧ (st2.ws = none ∨ st2.ws = some WsReady.closed) then
              let (st3, evs) := attemptReconnect enc st2
              (st3, Event.encodeCall :: evs)
            else (st2, [Event.encodeCall])
          else (st2, [Event.encodeCall])

lemma stopRecording_not_recording (enc : Encoder E) (st : OffState E) :
    ((stopRecording enc st).1).isRecording = false := by
  rcases hrec : st.isRecording with _ | _
  · simp [stopRecording, hrec]
  · rcases hws : st.ws with _ | r <;>
      rcases henc : st.mp3Encoder with _ | e <;>
        simp [stopRecording, cleanupWebSocket, hrec, hws, henc] <;>
          split <;> simp

/-- A minimal concrete encoder used by the witnesses: one byte out per
frame, one byte at flush. -/
def unitEncoder : Encoder Unit where
  encodeBuffer := fun _ _ => ((), [0])
  flush := fun _ => [1]

/-- C7. No chunk is produced outside the Recording state: when
`isRecording` is false or the encoder is absent, `processAudioBuffer` (both
the offscreen.js version and the unnamed/part_005 version) returns with the
state unchanged and an empty trace — no encoder invocation, no send; in
particular, after `stopRecording` has begun (which clears `isRecording`
first), every delivered buffer is ignored. -/
theorem no_encode_when_not_recording (enc : Encoder E) (st : OffState E) (buffer : List ℚ) :
    (st.isRecording = false ∨ st.mp3Encoder = none →
      processAudioBuffer enc st buffer = (st, []) ∧
      processAudioBufferP5 enc st buffer = (st, [])) ∧
    processAudioBuffer enc (stopRecording enc st).1 buffer
        = ((stopRecording enc st).1, []) ∧
    processAudioBufferP5 enc (stopRecording enc st).1 buffer
        = ((stopRecording enc st).1, []) := by
  have hguard : ∀ (st' : OffState E), st'.isRecording = false ∨ st'.mp3Encoder = none →
      processAudioBuffer enc st' buffer = (st', []) ∧
      processAudioBufferP5 enc st' buffer = (st', []) := by
    intro st' h
    rcases h with h | h
    · constructor <;> simp [processAudioBuffer, processAudioBufferP5, h]
    · rcases hrec : st'.isRecording with _ | _
      · constructor <;> simp [processAudioBuffer, processAudioBufferP5, hrec]
      · constructor <;> simp [processAudioBuffer, processAudioBufferP5, hrec, h]
  exact ⟨hguard st,
    (hguard _ (Or.inl (stopRecording_not_recording enc st))).1,
    (hguard _ (Or.inl (stopRecording_not_recording enc st))).2⟩

/-- C7 witness: a stopped state with an encoder present ignores a frame. -/
theorem no_encode_when_not_recording_witness :
    processAudioBuffer unitEncoder
        (⟨false, none, 0, some (), some WsReady.opened⟩ : OffState Unit) [1, 2]
      = ((⟨false, none, 0, some (), some WsReady.opened⟩ : OffState Unit), []) ∧
    processAudioBufferP5 unitEncoder
        (⟨false, none, 0, some (), some WsReady.opened⟩ : OffState Unit) [1, 2]
      = ((⟨false, none, 0, some (), some WsReady.opened⟩ : OffState Unit), []) :=
  (no_encode_when_not_recording unitEncoder
    (⟨false, none, 0, some (), some WsReady.opened⟩ : OffState Unit) [1, 2]).1
    (Or.inl rfl)

/-- C10. When `stopRecording` runs while recording but the WebSocket is
absent or not OPEN, `flush` is never invoked and nothing is sent — the
buffered trailing audio is discarded — while the remaining teardown still
completes: the final state has the recording flag cleared, the encoder and
socket references dropped, the attempt counter reset, and the trace is
exactly the `recordingStopped` notification. -/
theorem stop_skips_flush_when_ws_not_open (enc : Encoder E) (t : Option ℕ) (ca : ℕ)
    (me : Option E) (wo : Option WsReady)
    (hws : ∀ r, wo = some r → r ≠ WsReady.opened) :
    stopRecording enc (⟨true, t, ca, me, wo⟩ : OffState E)
        = (⟨false, none, 0, none, none⟩, [Event.notifyStopped]) ∧
    Event.flushCall ∉ (stopRecording enc (⟨true, t, ca, me, wo⟩ : OffState E)).2 ∧
    ∀ d, Event.send d ∉ (stopRecording enc (⟨true, t, ca, me, wo⟩ : OffState E)).2 := by
  have heq : stopRecording enc (⟨true, t, ca, me, wo⟩ : OffState E)
      = (⟨false, none, 0, none, none⟩, [Event.notifyStopped]) := by
    rcases wo with _ | r
    · rcases me with _ | e <;> simp [stopRecording, cleanupWebSocket]
    · have hr : r ≠ WsReady.opened := hws r rfl
      rcases me with _ | e <;> simp [stopRecording, cleanupWebSocket, hr]
  refine ⟨heq, ?_, ?_⟩
  · rw [heq]; simp
  · intro d; rw [heq]; simp

/-- C10 witness: stop with an encoder present and no socket at all. -/
theorem stop_skips_flush_when_ws_not_open_witness :
    stopRecording unitEncoder (⟨true, none, 3, some (), none⟩ : OffState Unit)
        = (⟨false, none, 0, none, none⟩, [Event.notifyStopped]) ∧
    Event.flushCall ∉ (stopRecording unitEncoder
        (⟨true, none, 3, some (), none⟩ : OffState Unit)).2 ∧
    ∀ d, Event.send d ∉ (stopRecording unitEncoder
        (⟨true, none, 3, some (), none⟩ : OffState Unit)).2 :=
  stop_skips_flush_when_ws_not_open unitEncoder none 3 (some ()) none
    (fun _ h => nomatch h)

lemma processAudioBuffer_eq (enc : Encoder E) (st : OffState E) (e : E) (b : List ℚ)
    (hrec : st.isRecording = true) (henc : st.mp3Encoder = some e) :
    processAudioBuffer enc st b
      = ({ st with mp3Encoder := some (enc.encodeBuffer e (floatTo16BitPCM b)).1 },
         if 0 < (enc.encodeBuffer e (floatTo16BitPCM b)).2.length ∧
             st.ws = some WsReady.opened
         then [Event.encodeCall, Event.send (enc.encodeBuffer e (floatTo16BitPCM b)).2]
         else [Event.encodeCall]) := by
  rcases hbuf : enc.encodeBuffer e (floatTo16BitPCM b) with ⟨e2, mp3buf⟩
  simp [processAudioBuffer, hrec, henc, hbuf]
  split <;> rfl

lemma processBuffers_shape (enc : Encoder E) :
    ∀ (bs : List (List ℚ)) (st : OffState E) (e : E),
      st.isRecording = true → st.mp3Encoder = some e →
      ∃ e' evs, processBuffers enc st bs = ({ st with mp3Encoder := some e' }, evs) ∧
        ∀ ev ∈ evs, ev = Event.encodeCall ∨ ∃ d, ev = Event.send d := by
  intro bs
  induction bs with
  | nil =>
      intro st e hrec henc
      refine ⟨e, [], ?_, by simp⟩
      have hst : ({ st with mp3Encoder := some e } : OffState E) = st := by
        cases st
        simp_all
      rw [hst]
      simp [processBuffers]
  | cons b bs ih =>
      intro st e hrec henc
      have h1 := processAudioBuffer_eq enc st e b hrec henc
      obtain ⟨e', evs, heq, hsh⟩ :=
        ih { st with mp3Encoder := some (enc.encodeBuffer e (floatTo16BitPCM b)).1 }
          (enc.encodeBuffer e (floatTo16BitPCM b)).1 hrec rfl
      refine ⟨e',
        (if 0 < (enc.encodeBuffer e (floatTo16BitPCM b)).2.length ∧
            st.ws = some WsReady.opened
         then [Event.encodeCall, Event.send (enc.encodeBuffer e (floatTo16BitPCM b)).2]
         else [Event.encodeCall]) ++ evs, ?_, ?_⟩
      · simp [processBuffers, h1, heq]
      · intro ev hev
        rcases List.mem_append.mp hev with hev | hev
        · split at hev
          · simp at hev
            rcases hev with hev | hev
            · exact Or.inl hev
            · exact Or.inr ⟨_, hev⟩
          · simp at hev
            exact Or.inl hev
        · exact hsh ev hev

lemma stopRecording_open_eq (enc : Encoder E) (st : OffState E) (e : E)
    (hrec : st.isRecording = true) (henc : st.mp3Encoder = some e)
    (hws : st.ws = some WsReady.opened) :
    stopRecording enc st
      = (⟨false, none, 0, none, none⟩,
         (Event.flushCall ::
            (if 0 < (enc.flush e).length then [Event.send (enc.flush e)] else []))
           ++ [Event.close 1000, Event.notifyStopped]) := by
  simp [stopRecording, cleanupWebSocket, hrec, henc, hws]

/-- C4. Flush ordering: in a recording run over the open transport, the
trace is the regular events (encoder invocations and chunk sends, in
production order) followed by — when `flush()` returns bytes — the flush
call, the send of the flush bytes, the close with code 1000, and the stop
notification. The flush bytes are therefore sent strictly after every
previously encoded chunk and strictly before the transport close. -/
theorem flush_after_chunks_before_close (enc : Encoder E) (t : Option ℕ) (ca : ℕ) (e : E)
    (bs : List (List ℚ)) :
    ∃ e' regular,
      processBuffers enc (⟨true, t, ca, some e, some WsReady.opened⟩ : OffState E) bs
        = (⟨true, t, ca, some e', some WsReady.opened⟩, regular) ∧
      (∀ ev ∈ regular, ev = Event.encodeCall ∨ ∃ d, ev = Event.send d) ∧
      (enc.flush e' ≠ [] →
        (sessionRun enc (⟨true, t, ca, some e, some WsReady.opened⟩ : OffState E) bs).2
          = regular ++ [Event.flushCall, Event.send (enc.flush e'),
              Event.close 1000, Event.notifyStopped]) := by
  obtain ⟨e', evs, heq, hsh⟩ := processBuffers_shape enc bs
    (⟨true, t, ca, some e, some WsReady.opened⟩ : OffState E) e rfl rfl
  refine ⟨e', evs, heq, hsh, ?_⟩
  intro hf
  have hflen : 0 < (enc.flush e').length := List.length_pos.mpr hf
  have hstop := stopRecording_open_eq enc
    (⟨true, t, ca, some e', some WsReady.opened⟩ : OffState E) e' rfl rfl rfl
  simp [sessionRun, heq, hstop, hflen]

/-- C4 witness: one frame through the unit encoder; the concrete trace shows
the regular chunk, then flush bytes, then the close. -/
theorem flush_after_chunks_before_close_witness :
    (sessionRun unitEncoder
        (⟨true, none, 0, some (), some WsReady.opened⟩ : OffState Unit) [[1]]).2
      = [Event.encodeCall, Event.send [0], Event.flushCall, Event.send [1],
         Event.close 1000, Event.notifyStopped] := by
  obtain ⟨e', regular, heq, hsh, him⟩ :=
    flush_after_chunks_before_close unitEncoder none 0 () [[1]]
  have hcomp : processBuffers unitEncoder
      (⟨true, none, 0, some (), some WsReady.opened⟩ : OffState Unit) [[1]]
      = (⟨true, none, 0, some (), some WsReady.opened⟩,
         [Event.encodeCall, Event.send [0]]) := rfl
  have hreg : regular = [Event.encodeCall, Event.send [0]] :=
    (Prod.mk.injEq _ _ _ _ ▸ (heq.symm.trans hcomp)).2
  have hflush : unitEncoder.flush e' ≠ [] := by simp [unitEncoder]
  rw [him hflush, hreg]
  simp [unitEncoder]

lemma runCloses_ws_none (enc : Encoder E) (code : ℕ) (st : OffState E)
    (hws : st.ws = none) : ∀ n, runCloses enc code st n = (st, []) := by
  intro n
  induction n with
  | zero => simp [runCloses]
  | succ n ih => simp [runCloses, handleWsClose, hws, ih]

lemma runCloses_succ (enc : Encoder E) (code : ℕ) (st : OffState E) (m : ℕ) :
    runCloses enc code st (m + 1)
      = ((runCloses enc code (handleWsClose enc code st).1 m).1,
         (handleWsClose enc code st).2
           ++ (runCloses enc code (handleWsClose enc code st).1 m).2) := by
  rcases h : handleWsClose enc code st with ⟨st1, evs1⟩
  simp [runCloses, h]

lemma handleWsClose_bump (enc : Encoder E) (code : ℕ) (t : Option ℕ) (me : Option E)
    (w : WsReady) (a : ℕ) (hcode : code ≠ 1000) (ha : a < 5) :
    handleWsClose enc code (⟨true, t, a, me, some w⟩ : OffState E)
      = (⟨true, t, a + 1, me, some WsReady.closed⟩,
         [Event.reconnectScheduled (a + 1)]) := by
  simp [handleWsClose, attemptReconnect, MAX_CONNECTION_ATTEMPTS, hcode,
    Nat.not_le.mpr ha]

lemma handleWsClose_capped (enc : Encoder E) (code : ℕ) (t : Option ℕ) (me : Option E)
    (w : WsReady) (hcode : code ≠ 1000) :
    handleWsClose enc code (⟨true, t, 5, me, some w⟩ : OffState E)
      = (⟨false, none, 0, none, none⟩, [Event.notifyStopped]) := by
  rcases me with _ | e <;>
    simp [handleWsClose, attemptReconnect, stopRecording, cleanupWebSocket,
      MAX_CONNECTION_ATTEMPTS, hcode]

/-- C5. Reconnection bound: starting from a recording state with a fresh
attempt counter, any run of `n > 5` consecutive unexpected socket closures
produces exactly five scheduled reconnection attempts (numbered 1..5, never
beyond the cap) and exactly one forced full stop; every closure after the
stop is ignored. -/
theorem reconnect_cap_forces_single_stop (enc : Encoder E) (t : Option ℕ) (me : Option E)
    (w : WsReady) (code : ℕ) (n : ℕ) (hcode : code ≠ 1000) (hn : 5 < n) :
    (runCloses enc code (⟨true, t, 0, me, some w⟩ : OffState E) n).2
      = [Event.reconnectScheduled 1, Event.reconnectScheduled 2,
         Event.reconnectScheduled 3, Event.reconnectScheduled 4,
         Event.reconnectScheduled 5, Event.notifyStopped] ∧
    (runCloses enc code (⟨true, t, 0, me, some w⟩ : OffState E) n).2.count
        Event.notifyStopped = 1 ∧
    ∀ a, Event.reconnectScheduled a ∈
        (runCloses enc code (⟨true, t, 0, me, some w⟩ : OffState E) n).2 →
      a ≤ MAX_CONNECTION_ATTEMPTS := by
  obtain ⟨k, rfl⟩ : ∃ k, n = (k + 5) + 1 := ⟨n - 6, by omega⟩
  have htrace : (runCloses enc code (⟨true, t, 0, me, some w⟩ : OffState E) ((k + 5) + 1)).2
      = [Event.reconnectScheduled 1, Event.reconnectScheduled 2,
         Event.reconnectScheduled 3, Event.reconnectScheduled 4,
         Event.reconnectScheduled 5, Event.notifyStopped] := by
    have e5 : (k + 5) + 1 = (((((k + 1) + 1) + 1) + 1) + 1) + 1 := by omega
    rw [e5,
      runCloses_succ, handleWsClose_bump enc code t me w 0 hcode (by omega),
      runCloses_succ, handleWsClose_bump enc code t me WsReady.closed 1 hcode (by omega),
      runCloses_succ, handleWsClose_bump enc code t me WsReady.closed 2 hcode (by omega),
      runCloses_succ, handleWsClose_bump enc code t me WsReady.closed 3 hcode (by omega),
      runCloses_succ, handleWsClose_bump enc code t me WsReady.closed 4 hcode (by omega),
      runCloses_succ, handleWsClose_capped enc code t me WsReady.closed hcode,
      runCloses_ws_none enc code (⟨false, none, 0, none, none⟩ : OffState E) rfl k]
    simp
  refine ⟨htrace, ?_, ?_⟩
  · rw [htrace]
    decide
  · intro a ha
    rw [htrace] at ha
    simp [MAX_CONNECTION_ATTEMPTS]
    simp at ha
    omega

/-- C5 witness: seven consecutive abnormal closures (code 1006) from a fresh
recording state. -/
theorem reconnect_cap_forces_single_stop_witness :
    ((runCloses unitEncoder 1006
        (⟨true, none, 0, some (), some WsReady.opened⟩ : OffState Unit) 7).2
      = [Event.reconnectScheduled 1, Event.reconnectScheduled 2,
         Event.reconnectScheduled 3, Event.reconnectScheduled 4,
         Event.reconnectScheduled 5, Event.notifyStopped] ∧
    (runCloses unitEncoder 1006
        (⟨true, none, 0, some (), some WsReady.opened⟩ : OffState Unit) 7).2.count
        Event.notifyStopped = 1 ∧
    ∀ a, Event.reconnectScheduled a ∈
        (runCloses unitEncoder 1006
          (⟨true, none, 0, some (), some WsReady.opened⟩ : OffState Unit) 7).2 →
      a ≤ MAX_CONNECTION_ATTEMPTS) :=
  reconnect_cap_forces_single_stop unitEncoder none (some ()) WsReady.opened 1006 7
    (by decide) (by decide)

/-! ### Start gating (offscreen-original.js `startRecording` and background.js `handleStartRecording`)

Session identifiers are opaque; they are modelled as natural numbers. The
asynchronous collaborators (WebSocket handshake, tab capture, offscreen
document creation) are modelled by boolean success parameters. -/

/-- Outward messages of offscreen-original.js's start path. -/
inductive OEvent
  | loginRequired
  | wsOpened
  | tabCaptured
deriving DecidableEq

/-- Module-scope state of offscreen-original.js relevant to the start
gate. -/
structure OrigState where
  isRecording : Bool
  recordingStartTime : Option ℕ
  receivedPublicId : Option ℕ
  ws : Option WsReady
  tabStream : Bool
deriving DecidableEq

/-- Embedding of `startRecording` (offscreen-original.js:191-231): bail out
when already recording; with no `receivedPublicId`, emit `loginRequired` and
return before any other effect; otherwise connect the WebSocket (failure
also emits `loginRequired`; the dangling socket reference of the failed
attempt is not modelled), mark recording started, and run the tab capture
(whose failure rolls the recording flag back and rethrows). -/
def startRecordingOrig (wsConnectOk tabCaptureOk : Bool) (now : ℕ)
    (st : OrigState) : OrigState × List OEvent :=
  if st.isRecording = true then (st, [])
  else
    match st.receivedPublicId with
    | none => (st, [OEvent.loginRequired])
    | some _ =>
        if wsConnectOk = false then (st, [OEvent.loginRequired])
        else
          let st1 : OrigState := { st with ws := some WsReady.opened }
          let st2 : OrigState :=
            { st1 with recordingStartTime := some now, isRecording := true }
          if tabCaptureOk then
            ({ st2 with tabStream := true }, [OEvent.wsOpened, OEvent.tabCaptured])
          else
            ({ st2 with isRecording := false, recordingStartTime := none },
             [OEvent.wsOpened])

/-- Responses `handleStartRecording` can pass to `sendResponse`. -/
inductive BgResponse
  | success
  | errAlreadyInProgress
  | errCaptureUnsupported
  | errLoginRequired
  | errOffscreenFailed
deriving DecidableEq

/-- Side effects of `handleStartRecording` beyond its state and response. -/
inductive BgEvent
  | showLoginBanner
  | ensureOffscreen
deriving DecidableEq

/-- Module-scope state of background.js relevant to the start gate. -/
structure BgState where
  isRecording : Bool
  pendingStartRecording : Bool
  recordingStartTime : Option ℕ
  globalPublicId : Option ℕ
  reconnectAttempts : ℕ
deriving DecidableEq

/-- Embedding of `handleStartRecording` (background.js:295-400): reject when
busy or when the capture API is unavailable; reset the recording state and
stamp the start time; then, with the `findAllPublicIds` result: an empty
list shows the login banner, clears the pending flag and start time and
responds `loginRequired` without touching the offscreen document; a found id
is stored and the offscreen document is ensured (failure clears the pending
flag again). -/
def handleStartRecording (tabCaptureAvailable : Bool) (publicIds : List ℕ)
    (ensureOffscreenOk : Bool) (now : ℕ) (st : BgState) :
    BgState × BgResponse × List BgEvent :=
  if st.isRecording = true ∨ st.pendingStartRecording = true then
    (st, BgResponse.errAlreadyInProgress, [])
  else if tabCaptureAvailable = false then
    (st, BgResponse.errCaptureUnsupported, [])
  else
    let st1 : BgState :=
      { isRecording := false, pendingStartRecording := false,
        recordingStartTime := some now, globalPublicId := st.globalPublicId,
        reconnectAttempts := 0 }
    match publicIds with
    | [] =>
        ({ st1 with
            globalPublicId := none, pendingStartRecording := false,
            recordingStartTime := none },
         BgResponse.errLoginRequired, [BgEvent.showLoginBanner])
    | pid :: _ =>
        let st2 : BgState :=
          { st1 with globalPublicId := some pid, pendingStartRecording := true }
        if ensureOffscreenOk then
          (st2, BgResponse.success, [BgEvent.ensureOffscreen])
        else
          ({ st2 with pendingStartRecording := false, recordingStartTime := none },
           BgResponse.errOffscreenFailed, [BgEvent.ensureOffscreen])

/-- C6. Start without a session id: in the offscreen document, a start with
no `receivedPublicId` emits only `loginRequired` and leaves the state
literally unchanged — no WebSocket opened, no stream acquired, recording
flag still false; in the background page, an empty `findAllPublicIds` result
yields the `loginRequired` error response and the login banner, with the
pending flag cleared and the offscreen document never ensured. -/
theorem start_without_session_id_aborts
    (wsOk tabOk : Bool) (now : ℕ) (st : OrigState)
    (hid : st.receivedPublicId = none) (hrec : st.isRecording = false)
    (ensureOk : Bool) (bgNow : ℕ) (bst : BgState)
    (hbrec : bst.isRecording = false) (hbpend : bst.pendingStartRecording = false) :
    startRecordingOrig wsOk tabOk now st = (st, [OEvent.loginRequired]) ∧
    handleStartRecording true [] ensureOk bgNow bst
      = (⟨false, false, none, none, 0⟩, BgResponse.errLoginRequired,
         [BgEvent.showLoginBanner]) := by
  constructor
  · simp [startRecordingOrig, hrec, hid]
  · simp [handleStartRecording, hbrec, hbpend]

/-- C6 witness: idle offscreen state with no id; idle background state. -/
theorem start_without_session_id_aborts_witness :
    startRecordingOrig true true 42 (⟨false, none, none, none, false⟩ : OrigState)
      = (⟨false, none, none, none, false⟩, [OEvent.loginRequired]) ∧
    handleStartRecording true [] true 42 (⟨false, false, none, none, 0⟩ : BgState)
      = (⟨false, false, none, none, 0⟩, BgResponse.errLoginRequired,
         [BgEvent.showLoginBanner]) :=
  start_without_session_id_aborts true true 42 ⟨false, none, none, none, false⟩
    rfl rfl true 42 ⟨false, false, none, none, 0⟩ rfl rfl

/-! ### AudioWorklet frame producer (audio-worklet.js) -/

/-- State of the `AudioProcessor` worklet: the fixed-size accumulation
buffer and its fill counter. -/
structure AudioProcessor where
  bufferSize : ℕ
  buffer : List ℚ
  bufferFill : ℕ
deriving DecidableEq

/-- Constructor state of `AudioProcessor`: `bufferSize = 4096`, a zeroed
`Float32Array(4096)`, fill counter 0. -/
def AudioProcessor.init : AudioProcessor :=
  ⟨4096, List.replicate 4096 0, 0⟩

/-- Sample-accumulation loop of `AudioProcessor.process`: each incoming
sample is written at the fill position while `bufferFill < bufferSize`;
samples arriving at a full buffer are dropped. -/
def fillBuffer : List ℚ → ℕ → ℕ → List ℚ → List ℚ × ℕ
  | buf, fill, _, [] => (buf, fill)
  | buf, fill, size, x :: xs =>
      if fill < size then fillBuffer (buf.set fill x) (fill + 1) size xs
      else fillBuffer buf fill size xs

/-- Embedding of `AudioProcessor.process` for one input block: accumulate
the samples; if the buffer is full afterwards, post a copy
(`this.buffer.slice(0)`) and reset the fill counter. -/
def AudioProcessor.process (st : AudioProcessor) (input : List ℚ) :
    AudioProcessor × List (List ℚ) :=
  let (buf, fill) := fillBuffer st.buffer st.bufferFill st.bufferSize input
  if st.bufferSize ≤ fill then
    ({ st with buffer := buf, bufferFill := 0 }, [buf])
  else
    ({ st with buffer := buf, bufferFill := fill }, [])

/-- Run of process callbacks with the concatenated posted messages. -/
def AudioProcessor.processAll :
    AudioProcessor → List (List ℚ) → AudioProcessor × List (List ℚ)
  | st, [] => (st, [])
  | st, i :: rest =>
      let (st1, p1) := st.process i
      let (st2, p2) := st1.processAll rest
      (st2, p1 ++ p2)

/-- Well-formedness of a worklet state as built by the constructor: the
4096-slot buffer and an in-range fill counter. -/
def AudioProcessor.WF (st : AudioProcessor) : Prop :=
  st.bufferSize = 4096 ∧ st.buffer.length = 4096 ∧ st.bufferFill ≤ 4096

lemma fillBuffer_len_le :
    ∀ (input buf : List ℚ) (fill size : ℕ), fill ≤ size →
      (fillBuffer buf fill size input).1.length = buf.length ∧
      (fillBuffer buf fill size input).2 ≤ size := by
  intro input
  induction input with
  | nil =>
      intro buf fill size h
      exact ⟨rfl, h⟩
  | cons x xs ih =>
      intro buf fill size h
      by_cases hf : fill < size
      · have hrec := ih (buf.set fill x) (fill + 1) size hf
        simpa [fillBuffer, hf, List.length_set] using hrec
      · have hrec := ih buf fill size h
        simpa [fillBuffer, hf] using hrec

lemma process_eq (st : AudioProcessor) (input buf : List ℚ) (fill : ℕ)
    (hpair : fillBuffer st.buffer st.bufferFill st.bufferSize input = (buf, fill)) :
    st.process input
      = if st.bufferSize ≤ fill
        then ({ st with buffer := buf, bufferFill := 0 }, [buf])
        else ({ st with buffer := buf, bufferFill := fill }, []) := by
  simp only [AudioProcessor.process, hpair]

lemma process_wf (st : AudioProcessor) (hwf : st.WF) (i : List ℚ) :
    (st.process i).1.WF ∧
    ∀ p ∈ (st.process i).2, p.length = 4096 := by
  obtain ⟨hsize, hbuf, hfill⟩ := hwf
  have hfb := fillBuffer_len_le i st.buffer st.bufferFill st.bufferSize
    (by omega)
  rcases hpair : fillBuffer st.buffer st.bufferFill st.bufferSize i with ⟨buf, fill⟩
  rw [hpair] at hfb
  rw [process_eq st i buf fill hpair]
  by_cases hle : st.bufferSize ≤ fill
  · rw [if_pos hle]
    refine ⟨⟨hsize, by simp [hfb.1, hbuf], by simp⟩, ?_⟩
    intro p hp
    simp at hp
    rw [hp, hfb.1, hbuf]
  · rw [if_neg hle]
    refine ⟨⟨hsize, by simp [hfb.1, hbuf], ?_⟩, by simp⟩
    show fill ≤ 4096
    omega

lemma processAll_wf :
    ∀ (inputs : List (List ℚ)) (st : AudioProcessor), st.WF →
      (st.processAll inputs).1.WF ∧
      ∀ p ∈ (st.processAll inputs).2, p.length = 4096 := by
  intro inputs
  induction inputs with
  | nil =>
      intro st hwf
      exact ⟨hwf, by simp [AudioProcessor.processAll]⟩
  | cons i rest ih =>
      intro st hwf
      obtain ⟨hwf1, hpost1⟩ := process_wf st hwf i
      obtain ⟨hwf2, hpost2⟩ := ih (st.process i).1 hwf1
      constructor
      · simpa [AudioProcessor.processAll] using hwf2
      · intro p hp
        simp only [AudioProcessor.processAll] at hp
        rcases List.mem_append.mp (by simpa using hp) with hp | hp
        · exact hpost1 p hp
        · exact hpost2 p hp

/-- C8. The worklet posts only complete frames: from a well-formed state,
one `process` call posts at most one message; a message is posted exactly
when the accumulation loop ends with the buffer exactly full
(fill = 4096), and then the counter resets to 0; every posted buffer has
length exactly 4096 — including along any run from the constructor
state. -/
theorem audioWorklet_posts_full_buffers (st : AudioProcessor) (input : List ℚ)
    (hwf : st.WF) :
    (∀ posted ∈ (st.process input).2, posted.length = 4096) ∧
    ((st.process input).2 ≠ [] →
      (fillBuffer st.buffer st.bufferFill st.bufferSize input).2 = 4096 ∧
      (st.process input).1.bufferFill = 0) ∧
    ((st.process input).2 = [] → (st.process input).1.bufferFill < 4096) ∧
    (st.process input).2.length ≤ 1 ∧
    (st.process input).1.WF ∧
    ∀ inputs, ∀ posted ∈ (AudioProcessor.init.processAll inputs).2,
      posted.length = 4096 := by
  obtain ⟨hsize, hbuf, hfill⟩ := hwf
  have hfb := fillBuffer_len_le input st.buffer st.bufferFill st.bufferSize
    (by omega)
  have hwf' := process_wf st ⟨hsize, hbuf, hfill⟩ input
  rcases hpair : fillBuffer st.buffer st.bufferFill st.bufferSize input with ⟨buf, fill⟩
  rw [hpair] at hfb
  have heq := process_eq st input buf fill hpair
  refine ⟨hwf'.2, ?_, ?_, ?_, hwf'.1, ?_⟩
  · intro hne
    by_cases hle : st.bufferSize ≤ fill
    · constructor
      · show fill = 4096
        omega
      · rw [heq, if_pos hle]
    · exfalso
      rw [heq, if_neg hle] at hne
      simp at hne
  · intro hempty
    by_cases hle : st.bufferSize ≤ fill
    · exfalso
      rw [heq, if_pos hle] at hempty
      simp at hempty
    · rw [heq, if_neg hle]
      show fill < 4096
      omega
  · by_cases hle : st.bufferSize ≤ fill
    · rw [heq, if_pos hle]
      simp
    · rw [heq, if_neg hle]
      simp
  · intro inputs
    exact (processAll_wf inputs AudioProcessor.init
      ⟨rfl, List.length_replicate 4096 0, Nat.zero_le _⟩).2

/-- C8 witness: the constructor state processing a single sample posts
nothing and keeps the invariant. -/
theorem audioWorklet_posts_full_buffers_witness :
    (∀ posted ∈ (AudioProcessor.init.process [1]).2, posted.length = 4096) ∧
    ((AudioProcessor.init.process [1]).2 ≠ [] →
      (fillBuffer AudioProcessor.init.buffer AudioProcessor.init.bufferFill
        AudioProcessor.init.bufferSize [1]).2 = 4096 ∧
      (AudioProcessor.init.process [1]).1.bufferFill = 0) ∧
    ((AudioProcessor.init.process [1]).2 = [] →
      (AudioProcessor.init.process [1]).1.bufferFill < 4096) ∧
    (AudioProcessor.init.process [1]).2.length ≤ 1 ∧
    (AudioProcessor.init.process [1]).1.WF ∧
    ∀ inputs, ∀ posted ∈ (AudioProcessor.init.processAll inputs).2,
      posted.length = 4096 :=
  audioWorklet_posts_full_buffers AudioProcessor.init [1]
    ⟨rfl, List.length_replicate 4096 0, Nat.zero_le _⟩

/-! ### Audio routing gain control (`AudioRouting.setGainLevel`, unnamed/part_005:787-818) -/

/-- Gain-source selector of `setGainLevel`; `unknown` stands for any string
other than the four recognized ones, handled by the default branch. -/
inductive GainSource
  | tab
  | mic
  | master
  | mixer
  | unknown
deriving DecidableEq

/-- Gain nodes of `AudioRouting` addressable by `setGainLevel`; a `none`
field models an absent node (the `if (this.tabGainNode)` guards). -/
structure AudioRouting where
  tabGainNode : Option ℚ
  micGainNode : Option ℚ
  masterGainNode : Option ℚ
  mixerGain : Option ℚ
deriving DecidableEq

/-- Embedding of `AudioRouting.setGainLevel`: clamp the level into `[0, 1]`
(`Math.max(0, Math.min(1, level))`), then assign it to the selected node
when that node exists; unknown sources only log a warning. -/
def setGainLevel (r : AudioRouting) (source : GainSource) (level : ℚ) : AudioRouting :=
  let clampedLevel := max 0 (min 1 level)
  match source with
  | GainSource.tab =>
      { r with tabGainNode := r.tabGainNode.map fun _ => clampedLevel }
  | GainSource.mic =>
      { r with micGainNode := r.micGainNode.map fun _ => clampedLevel }
  | GainSource.master =>
      { r with masterGainNode := r.masterGainNode.map fun _ => clampedLevel }
  | GainSource.mixer =>
      { r with mixerGain := r.mixerGain.map fun _ => clampedLevel }
  | GainSource.unknown => r

/-- C9. `setGainLevel` always applies the clamped level: for each of the
four sources the addressed node (when present) receives exactly
`max 0 (min 1 level)`, a value inside `[0, 1]` whatever the request was; an
unrecognized source changes nothing. -/
theorem setGainLevel_clamps (r : AudioRouting) (level : ℚ) :
    (0 ≤ max 0 (min 1 level) ∧ max 0 (min 1 level) ≤ 1) ∧
    (setGainLevel r GainSource.tab level).tabGainNode
        = r.tabGainNode.map (fun _ => max 0 (min 1 level)) ∧
    (setGainLevel r GainSource.mic level).micGainNode
        = r.micGainNode.map (fun _ => max 0 (min 1 level)) ∧
    (setGainLevel r GainSource.master level).masterGainNode
        = r.masterGainNode.map (fun _ => max 0 (min 1 level)) ∧
    (setGainLevel r GainSource.mixer level).mixerGain
        = r.mixerGain.map (fun _ => max 0 (min 1 level)) ∧
    setGainLevel r GainSource.unknown level = r :=
  ⟨⟨le_max_left _ _, max_le (by norm_num) (min_le_left _ _)⟩,
    rfl, rfl, rfl, rfl, rfl⟩

end ChromeExt
